import Mathlib

/-!
Verification development for the EPP_Viz service (`main.py`).

The embedding models, from the source:
* the fetch-and-resample pipeline `get_db_data` (hourly resampling with
  per-hour means for numeric columns, forward fill for categorical columns,
  a final whole-table forward fill, and normalization of the organization
  name to the most frequent value);
* the `functools.lru_cache` memoization wrapped around `get_db_data`;
* the exception flow of the three chart endpoints (`HTTPException(500)`
  raised inside `get_db_data`, blanket `except Exception` in each handler
  re-raising as `HTTPException(400, str(e))`);
* the chart titles, including the `.\x7borg_id\x7d.` set-literal fallback used
  when the table is empty.

Timestamps are modelled as minutes; the hour bucket of a record is `ts / 60`
and the pandas bin label of bucket `h` is the minute `60 * h`.
-/

/-- One row returned by the SQL query of `get_db_data` (main.py lines 35-47):
`(start_time, energy_kwh, source, cost, org_name)`.  `ts` is the timestamp in
minutes. -/
structure Record where
  ts : Nat
  energy_kwh : ℚ
  cost : ℚ
  source : String
  org_name : String
deriving DecidableEq

/-- One row of the resampled table.  `Option` models a pandas missing value
(`NaN` for numeric cells, `NaN`/`None` for object cells). -/
structure Row where
  hour : Nat
  energy_kwh : Option ℚ
  cost : Option ℚ
  source : Option String
  org_name : Option String
deriving DecidableEq

/-- The resampled dataframe returned by `get_db_data`. -/
structure Table where
  rows : List Row
deriving DecidableEq

/-- Hour bucket of a record: `resample('h')` bins a timestamp to the calendar
hour containing it. -/
def hourOf (q : Record) : Nat := q.ts / 60

/-- The input records falling into hour bucket `h`. -/
def bucket (recs : List Record) (h : Nat) : List Record :=
  recs.filter (fun q => hourOf q = h)

/-- Arithmetic mean of a list of rationals (pandas `mean` over a bin). -/
def meanQ (xs : List ℚ) : ℚ := xs.sum / xs.length

/-- Per-hour mean of the `energy_kwh` column
(`df[numeric_cols].resample('h').mean()`, main.py line 62): `NaN` for a bin
with no records. -/
def meanEnergy (recs : List Record) (h : Nat) : Option ℚ :=
  if (bucket recs h).isEmpty then none
  else some (meanQ ((bucket recs h).map (fun q => q.energy_kwh)))

/-- Per-hour mean of the `cost` column (main.py line 62). -/
def meanCost (recs : List Record) (h : Nat) : Option ℚ :=
  if (bucket recs h).isEmpty then none
  else some (meanQ ((bucket recs h).map (fun q => q.cost)))

/-- The record whose value `resample('h').ffill()` (main.py line 63) places at
the bin label `60 * h`: pandas implements `Resampler.ffill` as
`reindex(labels, method = ffill)`, taking the last observation at or before
each label. -/
def lastAtLabel (recs : List Record) (h : Nat) : Option Record :=
  (recs.filter (fun q => q.ts ≤ 60 * h)).getLast?

/-- The row of the concatenated hourly frame (main.py line 65) for bucket `h`,
before the whole-table forward fill. -/
def rawRow (recs : List Record) (h : Nat) : Row :=
  { hour := h
    energy_kwh := meanEnergy recs h
    cost := meanCost recs h
    source := (lastAtLabel recs h).map (fun q => q.source)
    org_name := (lastAtLabel recs h).map (fun q => q.org_name) }

/-- Keep a cell if it is set, otherwise take the forward-fill carry. -/
def fillO {α : Type} : Option α → Option α → Option α
  | some v, _ => some v
  | none, b => b

/-- Forward fill one row from the carry row `p` (one step of `df.ffill()`,
main.py line 66; the `hour` of the result is the row's own hour). -/
def mergeRow (p q : Row) : Row :=
  { hour := q.hour
    energy_kwh := fillO q.energy_kwh p.energy_kwh
    cost := fillO q.cost p.cost
    source := fillO q.source p.source
    org_name := fillO q.org_name p.org_name }

/-- Column-wise forward fill of a list of rows, threading the carry row. -/
def ffillGo (p : Row) : List Row → List Row
  | [] => []
  | q :: rest => mergeRow p q :: ffillGo (mergeRow p q) rest

/-- A carry row with every cell unset: the fill in front of the first row is
a no-op, as in pandas. -/
def initRow : Row := { hour := 0, energy_kwh := none, cost := none, source := none, org_name := none }

/-- `df.ffill()` (main.py line 66). -/
def ffillRows (rs : List Row) : List Row := ffillGo initRow rs

/-- The carry accumulated by the forward fill over a prefix of rows. -/
def carryOf (p : Row) (l : List Row) : Row := l.foldl mergeRow p

/-- `pandas.Series.mode()[0]`: the most frequent value, ties broken by the
smallest value (pandas returns the modes sorted ascending); `none` on an
empty list, in which case `[0]` raises `KeyError` in the source. -/
def pmode (xs : List String) : Option String :=
  xs.foldl
    (fun acc x =>
      match acc with
      | none => some x
      | some b =>
          if xs.count b < xs.count x ∨ (xs.count x = xs.count b ∧ x < b) then some x
          else some b)
    none

/-- Monotonicity-and-uniqueness check of the timestamp index: pandas
`reindex(..., method = ffill)` (behind `resample('h').ffill()`) raises unless
the index is monotonic, and raises on a non-unique index.  The SQL query
orders by `start_time`, so only duplicate timestamps can actually occur. -/
def tsSorted : List Nat → Bool
  | [] => true
  | [_] => true
  | a :: b :: rest => decide (a < b) && tsSorted (b :: rest)

/-- The hourly index produced by `resample('h')`: the hour buckets from the
first record's hour to the last record's hour, inclusive. -/
def hourIndex (r : Record) (rest : List Record) : List Nat :=
  List.range' (hourOf r) (hourOf (rest.getLastD r) + 1 - hourOf r)

/-- The rows of `pd.concat([numeric_df, categorical_df], axis=1)` followed by
`df.ffill()` (main.py lines 65-66). -/
def preRows (recs : List Record) (hrs : List Nat) : List Row :=
  ffillRows (hrs.map (rawRow recs))

/-- The resampling body of `get_db_data` (main.py lines 57-71).  An empty
query result is returned unchanged; otherwise the frame is resampled to an
hourly grid, forward filled, and the `org_name` column is overwritten with
its most frequent value (line 69).  `Except.error` models an exception
escaping to the `except` clause of `get_db_data`: a non-monotonic or
duplicated index makes the categorical `reindex` raise, and
`df.mode()[0]` on an all-missing `org_name` column raises `KeyError: 0`. -/
def resample : List Record → Except String Table
  | [] => Except.ok ⟨[]⟩
  | r :: rest =>
      if tsSorted ((r :: rest).map (fun q => q.ts)) then
        match pmode ((preRows (r :: rest) (hourIndex r rest)).filterMap (fun q => q.org_name)) with
        | none => Except.error "0"
        | some m =>
            Except.ok ⟨(preRows (r :: rest) (hourIndex r rest)).map
              (fun q => { hour := q.hour, energy_kwh := q.energy_kwh, cost := q.cost,
                          source := q.source, org_name := some m })⟩
      else Except.error "cannot reindex a non-unique index with a method or limit"

/-- The list of hour labels of a table. -/
def hoursOf (t : Table) : List Nat := t.rows.map (fun q => q.hour)

/-- Helper building a record. -/
def mkRec (ts : Nat) (e c : ℚ) (src org : String) : Record :=
  { ts := ts, energy_kwh := e, cost := c, source := src, org_name := org }

/-- A key as `functools.lru_cache` sees it.  The summary endpoint declares
`org_id: int`, so FastAPI coerces the path parameter to a Python `int`; the
energy and cost endpoints leave it untyped and receive a `str`.  A Python
`int` never equals a `str`, so the two constructors never compare equal. -/
inductive PyVal where
  | pint : Int → PyVal
  | pstr : String → PyVal
deriving DecidableEq

/-- The state of the `lru_cache(maxsize=32)` around `get_db_data` (main.py
lines 30-31): the entries in most-recently-used-first order, plus the number
of underlying computations performed so far (the `misses` counter, which
also serves as an abstract clock: `datetime.now()` makes recomputation
time-dependent). -/
structure CacheState (κ : Type) (α : Type) where
  entries : List (κ × α)
  computeCount : Nat
deriving DecidableEq

/-- Lookup by key in the recency list. -/
def lookup {κ α : Type} [DecidableEq κ] (k : κ) : List (κ × α) → Option α
  | [] => none
  | (k₂, v) :: es => if k = k₂ then some v else lookup k es

/-- Drop the entry with the given key (keys are unique in a cache state). -/
def removeKey {κ α : Type} [DecidableEq κ] (k : κ) (es : List (κ × α)) : List (κ × α) :=
  es.filter (fun p => ¬ p.1 = k)

/-- One call through `lru_cache(maxsize)`: a hit moves the entry to the
most-recently-used position and performs no computation; a miss computes
`f k` at the current clock, inserts the result at the front, and, if the
cache now exceeds `maxsize`, discards the least-recently-used entry (the
last of the list). -/
def getOrCompute {κ α : Type} [DecidableEq κ] (maxsize : Nat) (f : κ → Nat → α) (k : κ)
    (s : CacheState κ α) : α × CacheState κ α :=
  match lookup k s.entries with
  | some v => (v, { entries := (k, v) :: removeKey k s.entries, computeCount := s.computeCount })
  | none =>
      let v := f k s.computeCount
      let es := (k, v) :: s.entries
      (v, { entries := if maxsize < es.length then es.dropLast else es,
            computeCount := s.computeCount + 1 })

/-- Run a sequence of cached calls, keeping only the final state. -/
def runKeys {κ α : Type} [DecidableEq κ] (maxsize : Nat) (f : κ → Nat → α) (ks : List κ)
    (s : CacheState κ α) : CacheState κ α :=
  ks.foldl (fun st k => (getOrCompute maxsize f k st).2) s

/-- The cached pipeline with the capacity used in the source,
`lru_cache(maxsize=32)`. -/
def get_db_data_cached {α : Type} (f : PyVal → Nat → α) (k : PyVal)
    (s : CacheState PyVal α) : α × CacheState PyVal α :=
  getOrCompute 32 f k s

/-- A Python exception as observed by the handlers: either a
`fastapi.HTTPException` (status code and detail) or any other exception
carrying a message. -/
inductive PyExc where
  | http : Nat → String → PyExc
  | generic : String → PyExc
deriving DecidableEq

/-- Python `str(e)`: `starlette.exceptions.HTTPException` renders as
`"<status_code>: <detail>"`; for a plain exception the message. -/
def strOfExc : PyExc → String
  | .http c d => toString c ++ ": " ++ d
  | .generic m => m

/-- The error response of an endpoint: status code and detail string. -/
structure HTTPError where
  status : Nat
  detail : String
deriving DecidableEq

/-- Exception behaviour of `get_db_data` (main.py lines 49-74): the `try`
covers both the query and the resampling, and any exception is re-raised as
`HTTPException(status_code=500, detail="Database error: " + str(e))`. -/
def get_db_data_exc (store : Except String (List Record)) : Except PyExc Table :=
  match store with
  | .error d => .error (.http 500 ("Database error: " ++ d))
  | .ok recs =>
      match resample recs with
      | .error m => .error (.http 500 ("Database error: " ++ m))
      | .ok t => .ok t

/-- A minimal chart specification: the plotly kind and the title; the rest of
the figure is declarative configuration out of scope of the claims. -/
structure ChartSpec where
  kind : String
  title : String
deriving DecidableEq

/-- An ASCII single quote, as Python `repr` puts around a string. -/
def sglq : String := String.singleton (Char.ofNat 39)

/-- Python rendering of the one-element set `\x7borg_id\x7d` built by the title
f-string fallback (main.py lines 108, 133, 154) when `org_id` is a `str`. -/
def pySetReprOfStr (s : String) : String := "\x7b" ++ sglq ++ s ++ sglq ++ "\x7d"

/-- Python rendering of the one-element set `\x7borg_id\x7d` when `org_id` is an
`int` (the summary endpoint). -/
def pySetReprOfInt (n : Int) : String := "\x7b" ++ toString n ++ "\x7d"

/-- The chart title: `"Energy Consumption - "` followed by the first row's
`org_name` if the table is non-empty, else by the fallback rendering of the
set literal `\x7borg_id\x7d`. -/
def titleFor (fallback : String) (t : Table) : String :=
  "Energy Consumption - " ++
    (match t.rows.head? with
     | some q => q.org_name.getD ""
     | none => fallback)

/-- The line chart of `GET /viz/energy/` (main.py lines 102-111). -/
def energyChart (orgId : String) (t : Table) : ChartSpec :=
  { kind := "line", title := titleFor (pySetReprOfStr orgId) t }

/-- The stacked bar chart of `GET /viz/cost/` (main.py lines 127-137). -/
def costChart (orgId : String) (t : Table) : ChartSpec :=
  { kind := "bar", title := titleFor (pySetReprOfStr orgId) t }

/-- The scatter chart of `GET /viz/summary/` (main.py lines 147-157);
`org_id` is an `int` here. -/
def summaryChart (orgId : Int) (t : Table) : ChartSpec :=
  { kind := "scatter", title := titleFor (pySetReprOfInt orgId) t }

/-- The handler body shared by the three endpoints (main.py lines 97-117,
119-141, 143-166): call `get_db_data`, then build the chart; any exception
`e` escaping the `try` — including the `HTTPException(500)` raised inside
`get_db_data` — is caught by the blanket `except Exception` and re-raised as
`HTTPException(status_code=400, detail=str(e))`.  `chart` may itself fail
with a message, modelling a rendering exception.  No failure is retried. -/
def runViz (store : Except String (List Record)) (chart : Table → Except String ChartSpec) :
    Except HTTPError ChartSpec :=
  match get_db_data_exc store with
  | .error e => .error { status := 400, detail := strOfExc e }
  | .ok t =>
      match chart t with
      | .error m => .error { status := 400, detail := m }
      | .ok spec => .ok spec

/-- The daily cost aggregation of the cost endpoint (main.py lines 124-126):
group the resampled rows by calendar day and source, summing `cost`; rows
whose `source` is missing are dropped by pandas `groupby`. -/
def dailyCost (t : Table) : List ((Nat × String) × ℚ) :=
  let keys := (t.rows.filterMap (fun q => q.source.map (fun s => (q.hour / 24, s)))).dedup
  keys.map (fun k =>
    (k, ((t.rows.filter (fun q => q.hour / 24 = k.1 ∧ q.source = some k.2)).filterMap
          (fun q => q.cost)).sum))

/-- The energy endpoint acting on the shared cache (the chart step is pure). -/
def energyEndpointCached (compute : PyVal → Nat → Table) (orgId : String)
    (s : CacheState PyVal Table) : ChartSpec × CacheState PyVal Table :=
  let r := get_db_data_cached compute (PyVal.pstr orgId) s
  (energyChart orgId r.1, r.2)

/-- The cost endpoint acting on the shared cache: it additionally builds the
daily aggregation as a new table (`groupby(...).sum().reset_index()` does not
modify its input). -/
def costEndpointCached (compute : PyVal → Nat → Table) (orgId : String)
    (s : CacheState PyVal Table) : (ChartSpec × List ((Nat × String) × ℚ)) × CacheState PyVal Table :=
  let r := get_db_data_cached compute (PyVal.pstr orgId) s
  ((costChart orgId r.1, dailyCost r.1), r.2)

/-- The summary endpoint acting on the shared cache; its `org_id` is typed
`int`, so its cache key is `PyVal.pint`. -/
def summaryEndpointCached (compute : PyVal → Nat → Table) (orgId : Int)
    (s : CacheState PyVal Table) : ChartSpec × CacheState PyVal Table :=
  let r := get_db_data_cached compute (PyVal.pint orgId) s
  (summaryChart orgId r.1, r.2)

/-- Concrete input: three records at 10:00, 12:05 and 12:15. -/
def exA : List Record :=
  [mkRec 600 2 1 "solar" "Acme", mkRec 725 4 3 "wind" "Acme", mkRec 735 6 5 "wind" "Acme"]

/-- The resampled table of `exA`. -/
def exATable : Table :=
  ⟨[{ hour := 10, energy_kwh := some 2, cost := some 1, source := some "solar", org_name := some "Acme" },
    { hour := 11, energy_kwh := some 2, cost := some 1, source := some "solar", org_name := some "Acme" },
    { hour := 12, energy_kwh := some 5, cost := some 4, source := some "solar", org_name := some "Acme" }]⟩

deriving instance DecidableEq for Except

/-- Concrete input for the numeric-aggregation example of the spec: two
records at 10:05 and 10:40 with energies 2.0 and 4.0 (and costs 1.0, 3.0),
and no other records. -/
def exC5 : List Record := [mkRec 605 2 1 "solar" "Acme", mkRec 640 4 3 "solar" "Acme"]

/-- Concrete input with the organization name labelled `OrgA` at 10:00 and
`OrgB` at 12:00, 13:00 and 14:00. -/
def exC6 : List Record :=
  [mkRec 600 1 1 "solar" "OrgA", mkRec 720 1 1 "solar" "OrgB",
   mkRec 780 1 1 "solar" "OrgB", mkRec 840 1 1 "solar" "OrgB"]

/-- The resampled table of `exC6`: the mode normalization has relabelled
every row `OrgB`, including hour 11 whose forward-filled value was `OrgA`. -/
def exC6Table : Table :=
  ⟨[{ hour := 10, energy_kwh := some 1, cost := some 1, source := some "solar", org_name := some "OrgB" },
    { hour := 11, energy_kwh := some 1, cost := some 1, source := some "solar", org_name := some "OrgB" },
    { hour := 12, energy_kwh := some 1, cost := some 1, source := some "solar", org_name := some "OrgB" },
    { hour := 13, energy_kwh := some 1, cost := some 1, source := some "solar", org_name := some "OrgB" },
    { hour := 14, energy_kwh := some 1, cost := some 1, source := some "solar", org_name := some "OrgB" }]⟩

/-- Concrete input: records at 10:05 and 12:05. -/
def exC9 : List Record := [mkRec 605 2 1 "solar" "Acme", mkRec 725 4 3 "wind" "Acme"]

/-- The resampled table of `exC9`: the `source` cell of the first row is
unset, because no record lies at or before the first bin label 10:00. -/
def exC9Table : Table :=
  ⟨[{ hour := 10, energy_kwh := some 2, cost := some 1, source := none, org_name := some "Acme" },
    { hour := 11, energy_kwh := some 2, cost := some 1, source := some "solar", org_name := some "Acme" },
    { hour := 12, energy_kwh := some 4, cost := some 3, source := some "solar", org_name := some "Acme" }]⟩

/-- A capacity-2 cache run with a hit between the inserts: keys 1, 2, 1, 3
(the third call is a hit on key 1). -/
def lruDemo : CacheState Nat Nat :=
  runKeys 2 (fun k i => 10 * k + i) [1, 2, 1, 3] { entries := [], computeCount := 0 }

/-- An arbitrary concrete pipeline function for cache witnesses. -/
def constCompute : PyVal → Nat → Table := fun _ _ => ⟨[]⟩

/-- A cache state that already holds tables for the string key `"acme"` and
the int key `7`. -/
def c10State : CacheState PyVal Table :=
  { entries := [(PyVal.pstr "acme", exATable), (PyVal.pint 7, exC9Table)], computeCount := 5 }

/-- The cache state after the energy endpoint and then the cost endpoint
have served organization `n` (as the string path parameter) from a cold
cache. -/
def afterEnergyCost (compute : PyVal → Nat → Table) (n : Int) : CacheState PyVal Table :=
  (costEndpointCached compute (toString n)
    ((energyEndpointCached compute (toString n) { entries := [], computeCount := 0 }).2)).2

theorem lookup_filter_none {κ α : Type} [DecidableEq κ] (k : κ) (p : κ × α → Bool)
    (es : List (κ × α)) (h : lookup k es = none) : lookup k (es.filter p) = none := by
  induction es with
  | nil => simpa using h
  | cons e es ih =>
      rw [lookup] at h
      by_cases hk : k = e.1
      · simp [hk] at h
      · rw [if_neg hk] at h
        cases hp : p e with
        | true => simp [List.filter, hp, lookup, hk, ih h]
        | false => simp [List.filter, hp, ih h]

theorem lookup_dropLast_none {κ α : Type} [DecidableEq κ] (k : κ) (es : List (κ × α))
    (h : lookup k es = none) : lookup k es.dropLast = none := by
  induction es with
  | nil => simp [List.dropLast, lookup]
  | cons e es ih =>
      rw [lookup] at h
      by_cases hk : k = e.1
      · simp [hk] at h
      · rw [if_neg hk] at h
        cases es with
        | nil => simp [List.dropLast, lookup]
        | cons e₂ es₂ =>
            rw [List.dropLast_cons₂, lookup, if_neg hk]
            exact ih h

theorem getOrCompute_hit {κ α : Type} [DecidableEq κ] (m : Nat) (f : κ → Nat → α) (k : κ)
    (s : CacheState κ α) (v : α) (h : lookup k s.entries = some v) :
    getOrCompute m f k s =
      (v, { entries := (k, v) :: removeKey k s.entries, computeCount := s.computeCount }) := by
  simp [getOrCompute, h]

theorem getOrCompute_lookup_self {κ α : Type} [DecidableEq κ] (m : Nat) (hm : 1 ≤ m)
    (f : κ → Nat → α) (k : κ) (s : CacheState κ α) :
    lookup k ((getOrCompute m f k s).2).entries = some (getOrCompute m f k s).1 := by
  cases hl : lookup k s.entries with
  | some v => simp [getOrCompute, hl, lookup]
  | none =>
      simp only [getOrCompute, hl]
      split
      next hlt =>
        cases hes : s.entries with
        | nil =>
            rw [hes] at hlt
            simp only [List.length_cons, List.length_nil] at hlt
            omega
        | cons e es₂ =>
            rw [List.dropLast_cons₂]
            simp [lookup]
      next => simp [lookup]

theorem getOrCompute_lookup_none {κ α : Type} [DecidableEq κ] (m : Nat) (f : κ → Nat → α)
    (k k₂ : κ) (s : CacheState κ α) (hne : k₂ ≠ k) (h : lookup k₂ s.entries = none) :
    lookup k₂ ((getOrCompute m f k s).2).entries = none := by
  cases hl : lookup k s.entries with
  | some v =>
      rw [getOrCompute_hit m f k s v hl]
      rw [lookup, if_neg hne]
      exact lookup_filter_none k₂ _ _ h
  | none =>
      simp only [getOrCompute, hl]
      have hcons : lookup k₂ ((k, f k s.computeCount) :: s.entries) = none := by
        rw [lookup, if_neg hne]; exact h
      split
      · exact lookup_dropLast_none k₂ _ hcons
      · exact hcons

/-- Claim C1 (code_bug evidence).  When the store query fails, `get_db_data`
raises `HTTPException(500, "Database error: <detail>")`, but the handler's
blanket `except Exception` catches that exception too and re-raises it as
`HTTPException(400, str(e))`: the endpoint answers HTTP 400 with detail
`"500: Database error: <detail>"`, not HTTP 500 as the claim states.  This
theorem evaluates the endpoint at the failing input. -/
theorem spec_C1_store_failure_surfaces_as_400 :
    runViz (Except.error "connection refused") (fun t => Except.ok (energyChart "acme" t)) =
      Except.error { status := 400, detail := "500: Database error: connection refused" } := by
  rfl

/-- Claim C2 (counterexample).  `lru_cache` eviction is least-recently-USED,
not least-recently-inserted: with capacity 2 and the call sequence
key 1, key 2, key 1 (a hit), key 3, the evicted entry is key 2 — yet key 1
is the least-recently-inserted distinct key and it survives.  This refutes
the universally quantified eviction rule of the claim. -/
theorem spec_C2_cex_eviction_is_lru_not_fifo :
    lookup 1 lruDemo.entries = some 10 ∧ lookup 2 lruDemo.entries = none := by
  decide

/-- Claim C2 (amended).  In the claim's own verification scenario — capacity
2, three distinct keys inserted in order with no intervening hits — the LRU
policy coincides with oldest-inserted eviction: A is evicted, while B and C
remain retrievable without recomputation (a further call on B returns the
cached value and performs no computation). -/
theorem spec_C2_capacity2_insert_only_evicts_oldest {κ α : Type} [DecidableEq κ]
    (f : κ → Nat → α) (a b c : κ) (hab : a ≠ b) (hac : a ≠ c) (hbc : b ≠ c) :
    lookup a (runKeys 2 f [a, b, c] { entries := [], computeCount := 0 }).entries = none ∧
    lookup b (runKeys 2 f [a, b, c] { entries := [], computeCount := 0 }).entries = some (f b 1) ∧
    lookup c (runKeys 2 f [a, b, c] { entries := [], computeCount := 0 }).entries = some (f c 2) ∧
    (getOrCompute 2 f b (runKeys 2 f [a, b, c] { entries := [], computeCount := 0 })).1 = f b 1 ∧
    ((getOrCompute 2 f b (runKeys 2 f [a, b, c] { entries := [], computeCount := 0 })).2).computeCount =
      (runKeys 2 f [a, b, c] { entries := [], computeCount := 0 }).computeCount := by
  simp [runKeys, List.foldl, getOrCompute, lookup, removeKey, List.dropLast,
    hab, hac, hbc, Ne.symm hab, Ne.symm hac, Ne.symm hbc]

/-- Witness for C2's amended theorem at keys 1, 2, 3. -/
theorem spec_C2_capacity2_witness :
    ((1 : Nat) ≠ 2 ∧ (1 : Nat) ≠ 3 ∧ (2 : Nat) ≠ 3) ∧
    (lookup 1 (runKeys 2 (fun k i => 10 * k + i) [1, 2, 3] { entries := [], computeCount := 0 }).entries = none ∧
     lookup 2 (runKeys 2 (fun k i => 10 * k + i) [1, 2, 3] { entries := [], computeCount := 0 }).entries = some 21 ∧
     lookup 3 (runKeys 2 (fun k i => 10 * k + i) [1, 2, 3] { entries := [], computeCount := 0 }).entries = some 32 ∧
     (getOrCompute 2 (fun k i => 10 * k + i) 2 (runKeys 2 (fun k i => 10 * k + i) [1, 2, 3] { entries := [], computeCount := 0 })).1 = 21 ∧
     ((getOrCompute 2 (fun k i => 10 * k + i) 2 (runKeys 2 (fun k i => 10 * k + i) [1, 2, 3] { entries := [], computeCount := 0 })).2).computeCount =
       (runKeys 2 (fun k i => 10 * k + i) [1, 2, 3] { entries := [], computeCount := 0 }).computeCount) :=
  ⟨⟨by decide, by decide, by decide⟩,
   spec_C2_capacity2_insert_only_evicts_oldest (fun k i => 10 * k + i) 1 2 3
     (by decide) (by decide) (by decide)⟩

/-- Claim C3 (code_bug evidence).  An organization with zero records in
range yields an empty table and every endpoint still succeeds (HTTP 200);
but the title's fallback expression is the Python set literal built by
`\x7borg_id\x7d` inside the f-string, so the title renders the set — quotes and
braces included — rather than the raw identifier. -/
theorem spec_C3_empty_input_charts :
    resample [] = Except.ok ⟨[]⟩ ∧
    runViz (Except.ok []) (fun t => Except.ok (energyChart "acme" t)) =
      Except.ok { kind := "line", title := "Energy Consumption - " ++ pySetReprOfStr "acme" } ∧
    runViz (Except.ok []) (fun t => Except.ok (costChart "acme" t)) =
      Except.ok { kind := "bar", title := "Energy Consumption - " ++ pySetReprOfStr "acme" } ∧
    runViz (Except.ok []) (fun t => Except.ok (summaryChart 7 t)) =
      Except.ok { kind := "scatter", title := "Energy Consumption - " ++ pySetReprOfInt 7 } ∧
    "Energy Consumption - " ++ pySetReprOfStr "acme" ≠ "Energy Consumption - " ++ "acme" := by
  refine ⟨rfl, rfl, rfl, rfl, ?_⟩
  decide

/-- Claim C7.  Calling the cached pipeline twice with the identical key
returns the identical table — the second call is a cache hit served without
recomputation (`computeCount` unchanged), no matter what the underlying
computation would have produced at the later clock. -/
theorem spec_C7_second_call_served_from_cache {α : Type} (f : PyVal → Nat → α) (k : PyVal)
    (s : CacheState PyVal α) :
    (get_db_data_cached f k ((get_db_data_cached f k s).2)).1 = (get_db_data_cached f k s).1 ∧
    ((get_db_data_cached f k ((get_db_data_cached f k s).2)).2).computeCount =
      ((get_db_data_cached f k s).2).computeCount := by
  unfold get_db_data_cached
  have hself := getOrCompute_lookup_self 32 (by omega) f k s
  rw [getOrCompute_hit 32 f k _ _ hself]
  exact ⟨rfl, rfl⟩

/-- Claim C8.  The summary endpoint keys the cache with the Python `int`
while the energy and cost endpoints key it with the `str`: the two keys are
never equal, so after energy and cost have both run for organization `n`
from a cold cache (one computation, one hit), the summary request still
misses — it performs a fresh computation and the same organization then
occupies two distinct cache entries. -/
theorem spec_C8_int_and_str_keys_are_distinct (n : Int) (compute : PyVal → Nat → Table) :
    PyVal.pint n ≠ PyVal.pstr (toString n) ∧
    (afterEnergyCost compute n).computeCount = 1 ∧
    lookup (PyVal.pint n) (afterEnergyCost compute n).entries = none ∧
    ((summaryEndpointCached compute n (afterEnergyCost compute n)).2).computeCount =
      (afterEnergyCost compute n).computeCount + 1 ∧
    lookup (PyVal.pstr (toString n))
        ((summaryEndpointCached compute n (afterEnergyCost compute n)).2).entries =
      some (compute (PyVal.pstr (toString n)) 0) ∧
    lookup (PyVal.pint n)
        ((summaryEndpointCached compute n (afterEnergyCost compute n)).2).entries =
      some (compute (PyVal.pint n) 1) := by
  refine ⟨by simp, ?_, ?_, ?_, ?_, ?_⟩ <;>
    simp [afterEnergyCost, energyEndpointCached, costEndpointCached, summaryEndpointCached,
      get_db_data_cached, getOrCompute, lookup, removeKey]

/-- Claim C10.  Each endpoint handler leaves the cached table for its key
unchanged: a request that hits the cache only moves the entry to the front,
with the stored table equal to the one stored before the request, and the
cost endpoint's daily aggregation is a new table computed from the cached
one, not a modification of it. -/
theorem spec_C10_handlers_preserve_cached_tables (compute : PyVal → Nat → Table)
    (orgS : String) (orgN : Int) (s : CacheState PyVal Table) (v w : Table)
    (hv : lookup (PyVal.pstr orgS) s.entries = some v)
    (hw : lookup (PyVal.pint orgN) s.entries = some w) :
    lookup (PyVal.pstr orgS) ((energyEndpointCached compute orgS s).2).entries = some v ∧
    lookup (PyVal.pstr orgS) ((costEndpointCached compute orgS s).2).entries = some v ∧
    lookup (PyVal.pint orgN) ((summaryEndpointCached compute orgN s).2).entries = some w ∧
    (costEndpointCached compute orgS s).1.2 = dailyCost v := by
  unfold energyEndpointCached costEndpointCached summaryEndpointCached get_db_data_cached
  rw [getOrCompute_hit 32 compute _ s v hv, getOrCompute_hit 32 compute _ s w hw]
  simp [lookup]

/-- Witness for C10 at a concrete cache state holding tables for the string
key `"acme"` and the int key `7`. -/
theorem spec_C10_witness :
    (lookup (PyVal.pstr "acme") c10State.entries = some exATable ∧
     lookup (PyVal.pint 7) c10State.entries = some exC9Table) ∧
    (lookup (PyVal.pstr "acme") ((energyEndpointCached constCompute "acme" c10State).2).entries = some exATable ∧
     lookup (PyVal.pstr "acme") ((costEndpointCached constCompute "acme" c10State).2).entries = some exATable ∧
     lookup (PyVal.pint 7) ((summaryEndpointCached constCompute 7 c10State).2).entries = some exC9Table ∧
     (costEndpointCached constCompute "acme" c10State).1.2 = dailyCost exATable) :=
  ⟨⟨by decide, by decide⟩,
   spec_C10_handlers_preserve_cached_tables constCompute "acme" 7 c10State exATable exC9Table
     (by decide) (by decide)⟩

theorem fillO_some {α : Type} (v : α) (b : Option α) : fillO (some v) b = some v := rfl

theorem fillO_none {α : Type} (b : Option α) : fillO none b = b := rfl

theorem fillO_ne_none {α : Type} (a b : Option α) (hb : b ≠ none) : fillO a b ≠ none := by
  cases a <;> simp [fillO, hb]

theorem mergeRow_hour (p q : Row) : (mergeRow p q).hour = q.hour := rfl

theorem mergeRow_energy (p q : Row) : (mergeRow p q).energy_kwh = fillO q.energy_kwh p.energy_kwh := rfl

theorem mergeRow_cost (p q : Row) : (mergeRow p q).cost = fillO q.cost p.cost := rfl

theorem mergeRow_source (p q : Row) : (mergeRow p q).source = fillO q.source p.source := rfl

theorem carryOf_nil (p : Row) : carryOf p [] = p := rfl

theorem carryOf_cons (p q : Row) (l : List Row) : carryOf p (q :: l) = carryOf (mergeRow p q) l := rfl

theorem carryOf_energy_ne (l : List Row) (p : Row) (hp : p.energy_kwh ≠ none) :
    (carryOf p l).energy_kwh ≠ none := by
  induction l generalizing p with
  | nil => exact hp
  | cons q l ih =>
      rw [carryOf_cons]
      exact ih _ (by rw [mergeRow_energy]; exact fillO_ne_none _ _ hp)

theorem carryOf_cost_ne (l : List Row) (p : Row) (hp : p.cost ≠ none) :
    (carryOf p l).cost ≠ none := by
  induction l generalizing p with
  | nil => exact hp
  | cons q l ih =>
      rw [carryOf_cons]
      exact ih _ (by rw [mergeRow_cost]; exact fillO_ne_none _ _ hp)

theorem ffillGo_getElem? (rs : List Row) (p : Row) (i : Nat) :
    (ffillGo p rs)[i]? = Option.map (fun q => mergeRow (carryOf p (rs.take i)) q) rs[i]? := by
  induction rs generalizing p i with
  | nil => simp [ffillGo]
  | cons q rest ih =>
      cases i with
      | zero => simp [ffillGo, carryOf_nil]
      | succ j =>
          rw [ffillGo]
          rw [List.getElem?_cons_succ, List.getElem?_cons_succ, List.take_succ_cons,
            carryOf_cons]
          exact ih (mergeRow p q) j

theorem ffillGo_map_hour (rs : List Row) (p : Row) :
    (ffillGo p rs).map (fun q => q.hour) = rs.map (fun q => q.hour) := by
  induction rs generalizing p with
  | nil => rfl
  | cons q rest ih => simp [ffillGo, mergeRow_hour, ih]

theorem preRows_getElem? (recs : List Record) (hrs : List Nat) (i : Nat) :
    (preRows recs hrs)[i]? =
      Option.map
        (fun h => mergeRow (carryOf initRow ((hrs.take i).map (rawRow recs))) (rawRow recs h))
        hrs[i]? := by
  rw [preRows, ffillRows, ffillGo_getElem?, List.getElem?_map, Option.map_map,
    List.map_take]
  rfl

theorem tsSorted_tail {x : Nat} {l : List Nat} (h : tsSorted (x :: l) = true) :
    tsSorted l = true := by
  cases l with
  | nil => rfl
  | cons y t =>
      rw [tsSorted, Bool.and_eq_true] at h
      exact h.2

theorem tsSorted_head_lt {l : List Nat} {x y : Nat} (h : tsSorted (x :: l) = true)
    (hy : y ∈ l) : x < y := by
  induction l generalizing x with
  | nil => cases hy
  | cons z t ih =>
      rw [tsSorted, Bool.and_eq_true, decide_eq_true_iff] at h
      rcases List.mem_cons.mp hy with rfl | hyt
      · exact h.1
      · exact Nat.lt_trans h.1 (ih h.2 hyt)

theorem ts_lt_of_sorted {r p : Record} {rest : List Record}
    (hs : tsSorted ((r :: rest).map (fun q => q.ts)) = true) (hp : p ∈ rest) :
    r.ts < p.ts := by
  rw [List.map_cons] at hs
  exact tsSorted_head_lt hs (List.mem_map_of_mem _ hp)

theorem getLastD_self_or_mem {α : Type} (l : List α) (a : α) :
    l.getLastD a = a ∨ l.getLastD a ∈ l := by
  cases l with
  | nil => exact Or.inl (List.getLastD_nil a)
  | cons b t =>
      right
      rw [List.getLastD_eq_getLast?, List.getLast?_eq_getLast _ (List.cons_ne_nil b t)]
      exact List.getLast_mem _

theorem head_ts_le_getLastD {r : Record} {rest : List Record}
    (hs : tsSorted ((r :: rest).map (fun q => q.ts)) = true) :
    r.ts ≤ (rest.getLastD r).ts := by
  rcases getLastD_self_or_mem rest r with he | hm
  · rw [he]
  · exact Nat.le_of_lt (ts_lt_of_sorted hs hm)

theorem resample_nil_ok {t : Table} (h : resample [] = Except.ok t) : t = ⟨[]⟩ := by
  rw [resample] at h
  injection h with h₂
  rw [h₂]

theorem resample_cons_ok {r : Record} {rest : List Record} {t : Table}
    (h : resample (r :: rest) = Except.ok t) :
    tsSorted ((r :: rest).map (fun q => q.ts)) = true ∧
    ∃ m,
      pmode ((preRows (r :: rest) (hourIndex r rest)).filterMap (fun q => q.org_name)) = some m ∧
      t.rows = (preRows (r :: rest) (hourIndex r rest)).map
        (fun q => { hour := q.hour, energy_kwh := q.energy_kwh, cost := q.cost,
                    source := q.source, org_name := some m }) := by
  rw [resample] at h
  split at h
  next hsorted =>
    split at h
    next => cases h
    next m hm =>
      injection h with h₂
      exact ⟨hsorted, m, hm, by rw [← h₂]⟩
  next => cases h

theorem getLast?_filter_max {recs : List Record} {B : Nat} {q : Record}
    (hs : tsSorted (recs.map (fun x => x.ts)) = true) (hq : q ∈ recs) (hqB : q.ts ≤ B)
    (hmax : ∀ p ∈ recs, p.ts ≤ B → p.ts ≤ q.ts) :
    (recs.filter (fun x => x.ts ≤ B)).getLast? = some q := by
  induction recs with
  | nil => cases hq
  | cons a rest ih =>
      have hs₂ : tsSorted (rest.map (fun x => x.ts)) = true := by
        rw [List.map_cons] at hs
        exact tsSorted_tail hs
      rcases List.mem_cons.mp hq with rfl | hqrest
      · have hnone : rest.filter (fun x => x.ts ≤ B) = [] := by
          rw [List.filter_eq_nil_iff]
          intro p hp
          simp only [decide_eq_true_eq]
          intro hpB
          have h₁ := hmax p (List.mem_cons_of_mem _ hp) hpB
          have h₂ := ts_lt_of_sorted hs hp
          omega
        rw [List.filter_cons_of_pos (by simpa using hqB), hnone]
        rfl
      · have haB : a.ts ≤ B := Nat.le_of_lt (Nat.lt_of_lt_of_le (ts_lt_of_sorted hs hqrest) hqB)
        rw [List.filter_cons_of_pos (by simpa using haB)]
        have hres := ih hs₂ hqrest (fun p hp hpB => hmax p (List.mem_cons_of_mem _ hp) hpB)
        cases hfr : rest.filter (fun x => x.ts ≤ B) with
        | nil => rw [hfr] at hres; cases hres
        | cons b fr₂ =>
            rw [hfr] at hres
            rw [List.getLast?_cons_cons]
            exact hres

theorem chain'_succ_range' (n s : Nat) :
    List.Chain' (fun x y => y = x + 1) (List.range' s n) := by
  induction n generalizing s with
  | zero => exact List.chain'_nil
  | succ k ih =>
      rw [List.range'_succ]
      cases k with
      | zero => exact List.chain'_singleton s
      | succ j =>
          rw [List.range'_succ]
          exact List.chain'_cons.mpr ⟨rfl, by rw [← List.range'_succ]; exact ih (s + 1)⟩

theorem rawRow_energy_of_ne (recs : List Record) (h : Nat) (hb : bucket recs h ≠ []) :
    (rawRow recs h).energy_kwh = some (meanQ ((bucket recs h).map (fun q => q.energy_kwh))) := by
  show meanEnergy recs h = _
  rw [meanEnergy, if_neg (by rw [List.isEmpty_iff]; exact hb)]

theorem rawRow_cost_of_ne (recs : List Record) (h : Nat) (hb : bucket recs h ≠ []) :
    (rawRow recs h).cost = some (meanQ ((bucket recs h).map (fun q => q.cost))) := by
  show meanCost recs h = _
  rw [meanCost, if_neg (by rw [List.isEmpty_iff]; exact hb)]

/-- Claim C4.  For a non-empty input on which the resampler returns a table,
the table's hour index is exactly `List.range'` from the first record's hour
bucket to the last record's hour bucket: a contiguous ascending sequence of
hours with no duplicates and no gaps — exactly one row per hour of the data
span, with no hour missing even when the source had no samples in it. -/
theorem spec_C4_hour_index_contiguous (r : Record) (rest : List Record) (t : Table)
    (h : resample (r :: rest) = Except.ok t) :
    hoursOf t = List.range' (hourOf r) (hourOf (rest.getLastD r) + 1 - hourOf r) ∧
    (hoursOf t).Nodup ∧
    List.Chain' (fun x y => y = x + 1) (hoursOf t) ∧
    hoursOf t ≠ [] := by
  obtain ⟨hsorted, m, hm, hrows⟩ := resample_cons_ok h
  have hhours : hoursOf t = hourIndex r rest := by
    rw [hoursOf, hrows, List.map_map]
    show (preRows (r :: rest) (hourIndex r rest)).map (fun q => q.hour) = hourIndex r rest
    rw [preRows, ffillRows, ffillGo_map_hour, List.map_map]
    show (hourIndex r rest).map (fun h => h) = hourIndex r rest
    exact List.map_id' _
  have hle : hourOf r ≤ hourOf (rest.getLastD r) :=
    Nat.div_le_div_right (head_ts_le_getLastD hsorted)
  refine ⟨by rw [hhours, hourIndex], ?_, ?_, ?_⟩
  · rw [hhours, hourIndex]
    exact List.nodup_range' _ _
  · rw [hhours, hourIndex]
    exact chain'_succ_range' _ _
  · rw [hhours, hourIndex, Ne, List.range'_eq_nil]
    omega

/-- Witness for C4 at the concrete input `exA` (records at 10:00, 12:05 and
12:15): the resampler succeeds and the index is the hours 10, 11, 12. -/
theorem spec_C4_witness :
    resample exA = Except.ok exATable ∧
    hoursOf exATable = List.range' 10 3 ∧
    (hoursOf exATable).Nodup ∧
    List.Chain' (fun x y => y = x + 1) (hoursOf exATable) ∧
    hoursOf exATable ≠ [] := by
  have hok : resample exA = Except.ok exATable := by with_unfolding_all rfl
  have hres := spec_C4_hour_index_contiguous (mkRec 600 2 1 "solar" "Acme")
    [mkRec 725 4 3 "wind" "Acme", mkRec 735 6 5 "wind" "Acme"] exATable hok
  exact ⟨hok, hres.1, hres.2.1, hres.2.2.1, hres.2.2.2⟩

/-- Claim C5 (counterexample).  On the claim's own example input — exactly
two records, at 10:05 and 10:40, with energies 2.0 and 4.0 — the pipeline
does not produce a row with energy 3.0 at hour 10: it raises.  No record
lies at or before the single bin label 10:00, so `resample('h').ffill()`
leaves every categorical cell missing, and `df.mode()[0]` on the
all-missing `org_name` column raises `KeyError: 0`, which `get_db_data`
converts to `HTTPException(500, "Database error: 0")`. -/
theorem spec_C5_cex_example_input_raises : resample exC5 = Except.error "0" := by
  with_unfolding_all rfl

/-- Claim C5 (amended).  Whenever the resampler does return a table, every
row whose hour bucket contains at least one input record carries the
arithmetic mean of those records' values in both numeric columns. -/
theorem spec_C5_hour_mean_when_bucket_nonempty (recs : List Record) (t : Table) (i : Nat)
    (row : Row) (h : resample recs = Except.ok t) (hrow : t.rows[i]? = some row)
    (hb : bucket recs row.hour ≠ []) :
    row.energy_kwh = some (meanQ ((bucket recs row.hour).map (fun q => q.energy_kwh))) ∧
    row.cost = some (meanQ ((bucket recs row.hour).map (fun q => q.cost))) := by
  cases recs with
  | nil =>
      rw [resample_nil_ok h] at hrow
      simp at hrow
  | cons r rest =>
      obtain ⟨hsorted, m, hm, hrows⟩ := resample_cons_ok h
      rw [hrows, List.getElem?_map, preRows_getElem?, Option.map_map] at hrow
      cases hh : (hourIndex r rest)[i]? with
      | none => rw [hh] at hrow; cases hrow
      | some hv =>
          rw [hh, Option.map_some'] at hrow
          injection hrow with hX
          subst hX
          dsimp only [Function.comp, mergeRow] at hb ⊢
          have hvh : (rawRow (r :: rest) hv).hour = hv := rfl
          rw [hvh] at hb ⊢
          constructor
          · rw [rawRow_energy_of_ne _ _ hb, fillO_some]
          · rw [rawRow_cost_of_ne _ _ hb, fillO_some]

/-- Witness for C5's amended theorem at the input `exA`: hour 12 contains
the records at 12:05 and 12:15 with energies 4.0 and 6.0 and costs 3.0 and
5.0, and the row of hour 12 carries their means 5.0 and 4.0. -/
theorem spec_C5_witness :
    resample exA = Except.ok exATable ∧
    exATable.rows[2]? = some { hour := 12, energy_kwh := some 5, cost := some 4,
                               source := some "solar", org_name := some "Acme" } ∧
    bucket exA 12 ≠ [] ∧
    (some 5 : Option ℚ) = some (meanQ ((bucket exA 12).map (fun q => q.energy_kwh))) ∧
    (some 4 : Option ℚ) = some (meanQ ((bucket exA 12).map (fun q => q.cost))) := by
  have hok : resample exA = Except.ok exATable := by with_unfolding_all rfl
  have hrow : exATable.rows[2]? = some { hour := 12, energy_kwh := some 5, cost := some 4, source := some "solar", org_name := some "Acme" } := by
    with_unfolding_all rfl
  have hb : bucket exA 12 ≠ [] := by with_unfolding_all decide
  have hres := spec_C5_hour_mean_when_bucket_nonempty exA exATable 2 _ hok hrow hb
  exact ⟨hok, hrow, hb, hres.1, hres.2⟩

/-- Claim C6 (counterexample).  In `exC6` the organization name `OrgA` is
observed at hour 10 and the next observation (`OrgB`) is at hour 12, so the
claim requires hour 11 to carry `OrgA`; but the mode normalization of
main.py line 69 has overwritten the whole `org_name` column with the most
frequent value `OrgB`, so hour 11 carries `OrgB`. -/
theorem spec_C6_cex_org_name_mode_overrides_ffill :
    resample exC6 = Except.ok exC6Table ∧
    exC6Table.rows[1]? = some { hour := 11, energy_kwh := some 1, cost := some 1, source := some "solar", org_name := some "OrgB" } ∧
    ¬ (∀ row ∈ exC6Table.rows, row.hour = 11 → row.org_name = some "OrgA") := by
  refine ⟨by with_unfolding_all rfl, by with_unfolding_all rfl, ?_⟩
  with_unfolding_all decide

/-- Claim C6 (amended).  The forward-fill behaviour holds for the `source`
column: a `source` value observed in hour H appears unchanged at every
later output hour up to the point where a newer record exists at or before
that hour's bin label.  The `org_name` column, however, is normalized after
the fill: every row of the output carries the same `org_name` (the most
frequent value), so any two rows agree on it. -/
theorem spec_C6_source_ffill_org_name_constant (r : Record) (rest : List Record) (t : Table)
    (q : Record) (i j : Nat) (row row₂ : Row)
    (h : resample (r :: rest) = Except.ok t) (hq : q ∈ r :: rest)
    (hrow : t.rows[i]? = some row) (hrow₂ : t.rows[j]? = some row₂)
    (hafter : hourOf q < row.hour)
    (hnonew : ∀ p ∈ r :: rest, q.ts < p.ts → 60 * row.hour < p.ts) :
    row.source = some q.source ∧ row₂.org_name = row.org_name := by
  obtain ⟨hsorted, m, hm, hrows⟩ := resample_cons_ok h
  rw [hrows, List.getElem?_map, preRows_getElem?, Option.map_map] at hrow hrow₂
  cases hh₁ : (hourIndex r rest)[i]? with
  | none => rw [hh₁] at hrow; cases hrow
  | some hv =>
      cases hh₂ : (hourIndex r rest)[j]? with
      | none => rw [hh₂] at hrow₂; cases hrow₂
      | some hv₂ =>
          rw [hh₁, Option.map_some'] at hrow
          rw [hh₂, Option.map_some'] at hrow₂
          injection hrow with hX
          injection hrow₂ with hX₂
          subst hX
          subst hX₂
          dsimp only [Function.comp, mergeRow] at hafter hnonew ⊢
          have hvh : (rawRow (r :: rest) hv).hour = hv := rfl
          rw [hvh] at hafter hnonew
          refine ⟨?_, rfl⟩
          have hqB : q.ts ≤ 60 * hv := by
            unfold hourOf at hafter
            omega
          have hmax : ∀ p ∈ r :: rest, p.ts ≤ 60 * hv → p.ts ≤ q.ts := by
            intro p hp hpB
            rcases Nat.lt_or_ge q.ts p.ts with hlt | hge
            · have := hnonew p hp hlt
              omega
            · exact hge
          have hlast : lastAtLabel (r :: rest) hv = some q :=
            getLast?_filter_max hsorted hq hqB hmax
          rw [show (rawRow (r :: rest) hv).source = (lastAtLabel (r :: rest) hv).map (fun z => z.source) from rfl]
          rw [hlast, Option.map_some', fillO_some]

set_option maxRecDepth 8000 in
/-- Witness for C6's amended theorem on `exC6`: the `source` value `solar`
observed at hour 10 still appears at hour 11, and rows 0 and 1 agree on
`org_name`. -/
theorem spec_C6_witness :
    resample exC6 = Except.ok exC6Table ∧
    exC6Table.rows[1]? = some { hour := 11, energy_kwh := some 1, cost := some 1, source := some "solar", org_name := some "OrgB" } ∧
    exC6Table.rows[0]? = some { hour := 10, energy_kwh := some 1, cost := some 1, source := some "solar", org_name := some "OrgB" } ∧
    ({ hour := 11, energy_kwh := some 1, cost := some 1, source := some "solar", org_name := some "OrgB" } : Row).source = some (mkRec 600 1 1 "solar" "OrgA").source ∧
    ({ hour := 10, energy_kwh := some 1, cost := some 1, source := some "solar", org_name := some "OrgB" } : Row).org_name = ({ hour := 11, energy_kwh := some 1, cost := some 1, source := some "solar", org_name := some "OrgB" } : Row).org_name := by
  have hok : resample (mkRec 600 1 1 "solar" "OrgA" :: [mkRec 720 1 1 "solar" "OrgB", mkRec 780 1 1 "solar" "OrgB", mkRec 840 1 1 "solar" "OrgB"]) = Except.ok exC6Table := by
    with_unfolding_all rfl
  have hrow : exC6Table.rows[1]? = some { hour := 11, energy_kwh := some 1, cost := some 1, source := some "solar", org_name := some "OrgB" } := by
    with_unfolding_all rfl
  have hrow₂ : exC6Table.rows[0]? = some { hour := 10, energy_kwh := some 1, cost := some 1, source := some "solar", org_name := some "OrgB" } := by
    with_unfolding_all rfl
  have hres := spec_C6_source_ffill_org_name_constant (mkRec 600 1 1 "solar" "OrgA")
    [mkRec 720 1 1 "solar" "OrgB", mkRec 780 1 1 "solar" "OrgB", mkRec 840 1 1 "solar" "OrgB"]
    exC6Table (mkRec 600 1 1 "solar" "OrgA") 1 0 _ _ hok
    (by with_unfolding_all decide) hrow hrow₂
    (by with_unfolding_all decide) (by with_unfolding_all decide)
  exact ⟨hok, hrow, hrow₂, hres.1, hres.2⟩

theorem fillO_ne_none_left {α : Type} (a b : Option α) (ha : a ≠ none) : fillO a b ≠ none := by
  cases a with
  | none => exact absurd rfl ha
  | some v => simp [fillO]

/-- Claim C9 (counterexample).  `exC9` (records at 10:05 and 12:05) resamples
successfully, yet its table does contain an unset cell: the `source` cell of
the first row is missing, because no record lies at or before the first bin
label 10:00. -/
theorem spec_C9_cex_first_row_source_unset :
    resample exC9 = Except.ok exC9Table ∧
    exC9Table.rows[0]? = some { hour := 10, energy_kwh := some 2, cost := some 1, source := none, org_name := some "Acme" } ∧
    ¬ (∀ row ∈ exC9Table.rows, row.source ≠ none) := by
  refine ⟨by with_unfolding_all rfl, by with_unfolding_all rfl, ?_⟩
  with_unfolding_all decide

/-- Claim C9 (amended).  For a non-empty input on which the resampler
returns a table: the hourly index starts at the hour of the first record
(never at the start of the lookback window, so leading gaps never occur);
every row's `energy_kwh`, `cost` and `org_name` cells are populated; every
row after the first has its `source` cell populated; and when the first
record lies exactly on the hour, the first row's `source` is populated
too.  (The only possibly-unset cell is the first row's `source`, when the
first record is not on the hour — see the counterexample.) -/
theorem spec_C9_cells_populated (r : Record) (rest : List Record) (t : Table) (i : Nat)
    (row : Row) (h : resample (r :: rest) = Except.ok t) (hrow : t.rows[i]? = some row) :
    (t.rows[0]?).map (fun q => q.hour) = some (hourOf r) ∧
    row.energy_kwh ≠ none ∧
    row.cost ≠ none ∧
    row.org_name ≠ none ∧
    (row.hour ≠ hourOf r → row.source ≠ none) ∧
    (r.ts = 60 * hourOf r → row.source ≠ none) := by
  obtain ⟨hsorted, m, hm, hrows⟩ := resample_cons_ok h
  have hle : hourOf r ≤ hourOf (rest.getLastD r) :=
    Nat.div_le_div_right (head_ts_le_getLastD hsorted)
  have hn : hourOf (rest.getLastD r) + 1 - hourOf r = (hourOf (rest.getLastD r) - hourOf r) + 1 := by
    omega
  have hcons : hourIndex r rest =
      hourOf r :: List.range' (hourOf r + 1) (hourOf (rest.getLastD r) - hourOf r) := by
    rw [hourIndex, hn, List.range'_succ]
  have hidx0 : (hourIndex r rest)[0]? = some (hourOf r) := by
    rw [hcons, List.getElem?_cons_zero]
  have hbucket0 : bucket (r :: rest) (hourOf r) ≠ [] := by
    apply List.ne_nil_of_mem (a := r)
    rw [bucket, List.mem_filter]
    exact ⟨List.mem_cons_self r rest, by simp⟩
  have hhead : (t.rows[0]?).map (fun q => q.hour) = some (hourOf r) := by
    rw [hrows, List.getElem?_map, preRows_getElem?, Option.map_map, hidx0, Option.map_some',
      Option.map_some']
    rfl
  rw [hrows, List.getElem?_map, preRows_getElem?, Option.map_map] at hrow
  cases hh₁ : (hourIndex r rest)[i]? with
  | none => rw [hh₁] at hrow; cases hrow
  | some hv =>
      rw [hh₁, Option.map_some'] at hrow
      injection hrow with hX
      subst hX
      have hilen : i < (hourIndex r rest).length := by
        by_contra hge
        rw [List.getElem?_eq_none (Nat.le_of_not_lt hge)] at hh₁
        cases hh₁
      have hveq : hv = hourOf r + i := by
        rw [hourIndex] at hilen hh₁
        rw [List.length_range'] at hilen
        rw [List.getElem?_range' _ _ hilen] at hh₁
        injection hh₁ with hh₂
        omega
      have hsrc : r.ts ≤ 60 * hv → (rawRow (r :: rest) hv).source ≠ none := by
        intro hts
        have hmem : r ∈ (r :: rest).filter (fun z => z.ts ≤ 60 * hv) := by
          rw [List.mem_filter]
          exact ⟨List.mem_cons_self r rest, by simpa using hts⟩
        have hne := List.ne_nil_of_mem hmem
        show ((lastAtLabel (r :: rest) hv).map (fun z => z.source)) ≠ none
        rw [lastAtLabel, List.getLast?_eq_getLast _ hne, Option.map_some']
        exact fun hc => Option.noConfusion hc
      dsimp only [Function.comp, mergeRow]
      refine ⟨hhead, ?_, ?_, by simp, ?_, ?_⟩
      · cases i with
        | zero =>
            rw [hidx0] at hh₁
            injection hh₁ with hh₂
            rw [← hh₂, List.take_zero, List.map_nil, carryOf_nil,
              rawRow_energy_of_ne _ _ hbucket0, fillO_some]
            simp
        | succ j =>
            apply fillO_ne_none
            rw [hcons, List.take_succ_cons, List.map_cons, carryOf_cons]
            apply carryOf_energy_ne
            rw [mergeRow_energy, rawRow_energy_of_ne _ _ hbucket0, fillO_some]
            simp
      · cases i with
        | zero =>
            rw [hidx0] at hh₁
            injection hh₁ with hh₂
            rw [← hh₂, List.take_zero, List.map_nil, carryOf_nil,
              rawRow_cost_of_ne _ _ hbucket0, fillO_some]
            simp
        | succ j =>
            apply fillO_ne_none
            rw [hcons, List.take_succ_cons, List.map_cons, carryOf_cons]
            apply carryOf_cost_ne
            rw [mergeRow_cost, rawRow_cost_of_ne _ _ hbucket0, fillO_some]
            simp
      · intro hne
        apply fillO_ne_none_left
        apply hsrc
        have hvh : (rawRow (r :: rest) hv).hour = hv := rfl
        rw [hvh] at hne
        have hi : i ≠ 0 := by
          intro hi0
          rw [hi0] at hveq
          omega
        have hrts : r.ts < 60 * (hourOf r + 1) := by
          unfold hourOf
          omega
        unfold hourOf at hveq
        omega
      · intro hon
        apply fillO_ne_none_left
        apply hsrc
        omega

set_option maxRecDepth 8000 in
/-- Witness for C9's amended theorem on `exA` (whose first record lies
exactly on the hour): the index starts at hour 10 and the row of hour 11 has
every cell populated. -/
theorem spec_C9_witness :
    resample exA = Except.ok exATable ∧
    exATable.rows[1]? = some { hour := 11, energy_kwh := some 2, cost := some 1, source := some "solar", org_name := some "Acme" } ∧
    (exATable.rows[0]?).map (fun q => q.hour) = some 10 ∧
    ({ hour := 11, energy_kwh := some 2, cost := some 1, source := some "solar", org_name := some "Acme" } : Row).energy_kwh ≠ none ∧
    ({ hour := 11, energy_kwh := some 2, cost := some 1, source := some "solar", org_name := some "Acme" } : Row).cost ≠ none ∧
    ({ hour := 11, energy_kwh := some 2, cost := some 1, source := some "solar", org_name := some "Acme" } : Row).org_name ≠ none ∧
    ({ hour := 11, energy_kwh := some 2, cost := some 1, source := some "solar", org_name := some "Acme" } : Row).source ≠ none := by
  have hok : resample (mkRec 600 2 1 "solar" "Acme" :: [mkRec 725 4 3 "wind" "Acme", mkRec 735 6 5 "wind" "Acme"]) = Except.ok exATable := by
    with_unfolding_all rfl
  have hrow : exATable.rows[1]? = some { hour := 11, energy_kwh := some 2, cost := some 1, source := some "solar", org_name := some "Acme" } := by
    with_unfolding_all rfl
  have hres := spec_C9_cells_populated (mkRec 600 2 1 "solar" "Acme")
    [mkRec 725 4 3 "wind" "Acme", mkRec 735 6 5 "wind" "Acme"] exATable 1 _ hok hrow
  exact ⟨hok, hrow, hres.1, hres.2.1, hres.2.2.1, hres.2.2.2.1,
    hres.2.2.2.2.2 (by with_unfolding_all decide)⟩
